import Mathlib

/-!
Verification of the cash-flow valuation and root-finding subsystem of the
pynance library (src/pynance/myfunctions.py), shallowly embedded over ℚ.

Python floats are modelled as exact rationals; every fallible Python function
(one that can raise) is modelled as a Lean function into `Except FinError ℚ`.
The `TypeError` branches (cash flows not a list/ndarray) are made unreachable
by typing the argument as `List ℚ` and are not modelled.
-/

namespace Pynance

/-- Error kinds raised by the library, following the spec's taxonomy in §7.
In the Python source these are `ValueError`s about a rate domain
(`invalidRate`), `ValueError`s about other parameters (`invalidParameter`),
the uncaught `ZeroDivisionError` of the IRR loop (`zeroDerivative`), and the
non-convergence `ValueError` carrying `max_iterations` (`didNotConverge`). -/
inductive FinError where
  | invalidRate
  | invalidParameter
  | zeroDerivative
  | didNotConverge (maxIterations : ℤ)
deriving DecidableEq, Repr

/-- Exception propagation: evaluate the fallible computation `m`; a raised
error aborts the whole expression, otherwise continue with its value. -/
def tryBind (m : Except FinError ℚ) (f : ℚ → Except FinError ℚ) :
    Except FinError ℚ :=
  match m with
  | .error e => .error e
  | .ok v => f v

/-- Embedding of the generator-sum in `npv`: Python's
`sum(cf / (1 + rate) ** t for t, cf in enumerate(cash_flows))` evaluated inside
`try/except ZeroDivisionError`, with `t` the running index.  A division whose
divisor `(1+rate)^t` is zero raises, which the `except` turns into the
rate-domain `ValueError` (`invalidRate`); terms already accumulated are
discarded, matching exception semantics. -/
def npvSum (rate : ℚ) : ℕ → List ℚ → Except FinError ℚ
  | _, [] => .ok 0
  | t, cf :: rest =>
      if (1 + rate) ^ t = 0 then .error .invalidRate
      else
        tryBind (npvSum rate (t + 1) rest) fun s =>
          .ok (cf / (1 + rate) ^ t + s)

/-- Embedding of `npv(rate, cash_flows)`: reject `rate < -1` eagerly, then sum
the discounted cash flows, reporting an internal division by zero as the
rate-domain error. -/
def npv (rate : ℚ) (cashFlows : List ℚ) : Except FinError ℚ :=
  if rate < -1 then .error .invalidRate
  else npvSum rate 0 cashFlows

/-- Embedding of the generator-sum in `npv_derivative`: Python's
`sum(-t * cf / (1 + rate) ** (t + 1) for t, cf in enumerate(cash_flows))`
inside `try/except ZeroDivisionError`. -/
def npvDerivSum (rate : ℚ) : ℕ → List ℚ → Except FinError ℚ
  | _, [] => .ok 0
  | t, cf :: rest =>
      if (1 + rate) ^ (t + 1) = 0 then .error .invalidRate
      else
        tryBind (npvDerivSum rate (t + 1) rest) fun s =>
          .ok (-(t : ℚ) * cf / (1 + rate) ^ (t + 1) + s)

/-- Embedding of `npv_derivative(rate, cash_flows)`. -/
def npv_derivative (rate : ℚ) (cashFlows : List ℚ) : Except FinError ℚ :=
  if rate < -1 then .error .invalidRate
  else npvDerivSum rate 0 cashFlows

/-- Embedding of the `for i in range(max_iterations)` Newton-Raphson loop of
`internal_rate_of_return`, with the remaining iteration count as fuel.
Exhausting the fuel is the post-loop `ValueError` carrying the configured
`max_iterations`; a zero derivative raises `ZeroDivisionError`
(`zeroDerivative`); errors raised by `npv` / `npv_derivative` propagate. -/
def irrLoop (cashFlows : List ℚ) (tolerance : ℚ) (maxIterations : ℤ) :
    ℚ → ℕ → Except FinError ℚ
  | _, 0 => .error (.didNotConverge maxIterations)
  | rate, fuel + 1 =>
      tryBind (npv rate cashFlows) fun npvValue =>
        tryBind (npv_derivative rate cashFlows) fun npvDeriv =>
          if npvDeriv = 0 then .error .zeroDerivative
          else
            let newRate := rate - npvValue / npvDeriv
            if |newRate - rate| < tolerance then .ok newRate
            else irrLoop cashFlows tolerance maxIterations newRate fuel

/-- Embedding of `internal_rate_of_return(cash_flows, initial_guess, tolerance,
max_iterations)`: the three parameter validations in source order, then the
Newton-Raphson loop started at `initial_guess` with `max_iterations` rounds. -/
def internal_rate_of_return (cashFlows : List ℚ) (initialGuess : ℚ := 1 / 10)
    (tolerance : ℚ := 1 / 1000000) (maxIterations : ℤ := 1000) :
    Except FinError ℚ :=
  if initialGuess ≤ -1 then .error .invalidParameter
  else if tolerance ≤ 0 then .error .invalidParameter
  else if maxIterations ≤ 0 then .error .invalidParameter
  else irrLoop cashFlows tolerance maxIterations initialGuess maxIterations.toNat

/-- Embedding of `present_value(rate, future_value, periods)`: the two
validations in source order, then the discounting; the divisor-zero guard
mirrors the `try/except ZeroDivisionError` (unreachable once `rate ≥ 0`). -/
def present_value (rate : ℚ) (futureValue : ℚ) (periods : ℤ) :
    Except FinError ℚ :=
  if periods < 0 then .error .invalidParameter
  else if rate < 0 then .error .invalidRate
  else if (1 + rate) ^ periods.toNat = 0 then .error .invalidRate
  else .ok (futureValue / (1 + rate) ^ periods.toNat)

/-- Embedding of `future_value(rate, present_value, periods)`: the two
validations in source order, then compounding.  The `try/except OverflowError`
of the source cannot fire in exact rational arithmetic and is not modelled. -/
def future_value (rate : ℚ) (presentValue : ℚ) (periods : ℤ) :
    Except FinError ℚ :=
  if periods < 0 then .error .invalidParameter
  else if rate < 0 then .error .invalidRate
  else .ok (presentValue * (1 + rate) ^ periods.toNat)

/-- Embedding of the coupon sum in `bond_price`: Python's
`sum(coupon / (1 + discount_rate) ** t for t in range(1, periods + 1))` inside
`try/except ZeroDivisionError`. -/
def bondSum (discountRate coupon : ℚ) : List ℕ → Except FinError ℚ
  | [] => .ok 0
  | t :: rest =>
      if (1 + discountRate) ^ t = 0 then .error .invalidRate
      else
        tryBind (bondSum discountRate coupon rest) fun s =>
          .ok (coupon / (1 + discountRate) ^ t + s)

/-- Embedding of `bond_price(face_value, coupon_rate, periods,
discount_rate)`: the four validations in source order, then the coupon sum
over periods `1..periods` plus the discounted face value, with the
divisor-zero guard mirroring the `try/except ZeroDivisionError`. -/
def bond_price (faceValue couponRate : ℚ) (periods : ℤ) (discountRate : ℚ) :
    Except FinError ℚ :=
  if faceValue ≤ 0 then .error .invalidParameter
  else if couponRate < 0 then .error .invalidParameter
  else if periods ≤ 0 then .error .invalidParameter
  else if discountRate < 0 then .error .invalidRate
  else
    tryBind (bondSum discountRate (faceValue * couponRate)
        (List.range' 1 periods.toNat)) fun s =>
      if (1 + discountRate) ^ periods.toNat = 0 then .error .invalidRate
      else .ok (s + faceValue / (1 + discountRate) ^ periods.toNat)

/-- Root finder written from the spec's words (§4.2): `rate ← initial_guess`;
repeat up to `max_iterations` times: evaluate `f` and its derivative, fail
with `ZeroDerivative` if the derivative is zero, step to
`newRate = rate - value/deriv`, return `newRate` when `|newRate - rate|` is
below the tolerance (the sole convergence criterion), else continue; on
exhaustion fail with `DidNotConverge` carrying `max_iterations`. -/
def specRootFind (f fd : ℚ → Except FinError ℚ) (tolerance : ℚ)
    (maxIterations : ℤ) : ℚ → ℕ → Except FinError ℚ
  | _, 0 => .error (.didNotConverge maxIterations)
  | rate, fuel + 1 =>
      tryBind (f rate) fun value =>
        tryBind (fd rate) fun deriv =>
          if deriv = 0 then .error .zeroDerivative
          else
            let newRate := rate - value / deriv
            if |newRate - rate| < tolerance then .ok newRate
            else specRootFind f fd tolerance maxIterations newRate fuel

deriving instance DecidableEq for Except

/-- Closed-form net present value over the reals, as in the spec's §4.1
formula Σ over t of `cashFlows[t] / (1+rate)^t`. -/
noncomputable def npvRealSum (rate : ℝ) (cashFlows : List ℝ) : ℝ :=
  ∑ t in Finset.range cashFlows.length, cashFlows.getD t 0 / (1 + rate) ^ t

/-- Closed-form derivative of `npvRealSum` with respect to the rate, as in the
spec's §4.1 formula Σ over t of `-t·cashFlows[t] / (1+rate)^(t+1)`. -/
noncomputable def npvDerivRealSum (rate : ℝ) (cashFlows : List ℝ) : ℝ :=
  ∑ t in Finset.range cashFlows.length,
    -(t : ℝ) * cashFlows.getD t 0 / (1 + rate) ^ (t + 1)

/-! Helper lemmas about the summation workers. -/

@[simp] lemma tryBind_ok (v : ℚ) (f : ℚ → Except FinError ℚ) :
    tryBind (.ok v) f = f v := rfl

@[simp] lemma tryBind_error (e : FinError) (f : ℚ → Except FinError ℚ) :
    tryBind (.error e) f = .error e := rfl

lemma one_add_pow_ne_zero {rate : ℚ} (h : -1 < rate) (k : ℕ) :
    (1 + rate) ^ k ≠ 0 :=
  pow_ne_zero k (by linarith)

lemma npvSum_ok {rate : ℚ} (h : -1 < rate) :
    ∀ (cashFlows : List ℚ) (k : ℕ),
      npvSum rate k cashFlows =
        Except.ok (∑ i in Finset.range cashFlows.length,
          cashFlows.getD i 0 / (1 + rate) ^ (k + i)) := by
  intro cashFlows
  induction cashFlows with
  | nil => intro k; simp [npvSum]
  | cons c rest ih =>
    intro k
    rw [npvSum, if_neg (one_add_pow_ne_zero h k), ih (k + 1), tryBind_ok]
    simp only [List.length_cons]
    congr 1
    rw [Finset.sum_range_succ']
    simp only [List.getD_cons_succ, List.getD_cons_zero, add_zero]
    rw [add_comm]
    congr 1
    refine Finset.sum_congr rfl fun i _ => ?_
    congr 2
    omega

lemma npvDerivSum_ok {rate : ℚ} (h : -1 < rate) :
    ∀ (cashFlows : List ℚ) (k : ℕ),
      npvDerivSum rate k cashFlows =
        Except.ok (∑ i in Finset.range cashFlows.length,
          -(((k + i : ℕ)) : ℚ) * cashFlows.getD i 0 / (1 + rate) ^ (k + i + 1)) := by
  intro cashFlows
  induction cashFlows with
  | nil => intro k; simp [npvDerivSum]
  | cons c rest ih =>
    intro k
    rw [npvDerivSum, if_neg (one_add_pow_ne_zero h (k + 1)), ih (k + 1),
      tryBind_ok]
    simp only [List.length_cons]
    congr 1
    rw [Finset.sum_range_succ']
    simp only [List.getD_cons_succ, List.getD_cons_zero, add_zero]
    rw [add_comm]
    congr 1
    refine Finset.sum_congr rfl fun i _ => ?_
    have h1 : k + (i + 1) = k + 1 + i := by omega
    rw [h1]

lemma bondSum_ok {discountRate : ℚ} (coupon : ℚ) (h : 0 ≤ discountRate) :
    ∀ (n a : ℕ),
      bondSum discountRate coupon (List.range' a n) =
        Except.ok (∑ i in Finset.range n, coupon / (1 + discountRate) ^ (a + i)) := by
  intro n
  induction n with
  | zero => intro a; simp [bondSum]
  | succ m ih =>
    intro a
    rw [List.range'_succ, bondSum,
      if_neg (one_add_pow_ne_zero (by linarith) a), ih (a + 1), tryBind_ok]
    congr 1
    rw [Finset.sum_range_succ']
    simp only [add_zero]
    rw [add_comm]
    congr 1
    refine Finset.sum_congr rfl fun i _ => ?_
    have h1 : a + (i + 1) = a + 1 + i := by omega
    rw [h1]

lemma irrLoop_eq_specRootFind (cashFlows : List ℚ) (tol : ℚ) (N : ℤ) :
    ∀ (fuel : ℕ) (rate : ℚ),
      irrLoop cashFlows tol N rate fuel =
        specRootFind (fun r => npv r cashFlows)
          (fun r => npv_derivative r cashFlows) tol N rate fuel := by
  intro fuel
  induction fuel with
  | zero => intro rate; rfl
  | succ k ih =>
    intro rate
    rw [irrLoop, specRootFind]
    cases hv : npv rate cashFlows with
    | error e => rw [tryBind_error, tryBind_error]
    | ok v =>
      rw [tryBind_ok, tryBind_ok]
      cases hd : npv_derivative rate cashFlows with
      | error e => rw [tryBind_error, tryBind_error]
      | ok d =>
        rw [tryBind_ok, tryBind_ok]
        by_cases h0 : d = 0
        · rw [if_pos h0, if_pos h0]
        · rw [if_neg h0, if_neg h0]
          by_cases hconv : |rate - v / d - rate| < tol
          · simp only [hconv, if_pos]
          · simp only [hconv, if_neg, not_false_iff, ih]

lemma irrLoop_ok_last_step (cashFlows : List ℚ) (tol : ℚ) (N : ℤ) :
    ∀ (fuel : ℕ) (rate irr : ℚ),
      irrLoop cashFlows tol N rate fuel = Except.ok irr →
      ∃ r v d, npv r cashFlows = Except.ok v ∧
        npv_derivative r cashFlows = Except.ok d ∧ d ≠ 0 ∧
        irr = r - v / d ∧ |irr - r| < tol := by
  intro fuel
  induction fuel with
  | zero => intro rate irr h; exact absurd h (by simp [irrLoop])
  | succ k ih =>
    intro rate irr h
    rw [irrLoop] at h
    cases hv : npv rate cashFlows with
    | error e => rw [hv, tryBind_error] at h; exact absurd h (by simp)
    | ok v =>
      rw [hv, tryBind_ok] at h
      cases hd : npv_derivative rate cashFlows with
      | error e => rw [hd, tryBind_error] at h; exact absurd h (by simp)
      | ok d =>
        rw [hd, tryBind_ok] at h
        by_cases h0 : d = 0
        · rw [if_pos h0] at h; exact absurd h (by simp)
        · rw [if_neg h0] at h
          by_cases hconv : |rate - v / d - rate| < tol
          · rw [if_pos hconv] at h
            refine ⟨rate, v, d, hv, hd, h0, ?_, ?_⟩
            · exact (Except.ok.injEq _ _).mp h.symm
            · have : irr = rate - v / d := (Except.ok.injEq _ _).mp h.symm
              rw [this]; exact hconv
          · rw [if_neg hconv] at h
            exact ih _ _ h

lemma npv_neg_one_error :
    ∀ {cashFlows : List ℚ}, 2 ≤ cashFlows.length →
      npv (-1) cashFlows = Except.error FinError.invalidRate := by
  intro cashFlows hlen
  match cashFlows, hlen with
  | c1 :: c2 :: rest, _ =>
    rw [npv, if_neg (by norm_num), npvSum, if_neg (by norm_num), npvSum,
      if_pos (by norm_num), tryBind_error]

lemma hasDerivAt_discount_term (c x : ℝ) (t : ℕ) (h : 1 + x ≠ 0) :
    HasDerivAt (fun r : ℝ => c / (1 + r) ^ t)
      (-(t : ℝ) * c / (1 + x) ^ (t + 1)) x := by
  have hbase : HasDerivAt (fun r : ℝ => 1 + r) 1 x := by
    simpa using (hasDerivAt_id x).const_add 1
  have hpow := hbase.pow t
  have hne : (1 + x) ^ t ≠ 0 := pow_ne_zero t h
  have hdiv := (hasDerivAt_const x c).div hpow hne
  convert hdiv using 1
  rcases t with _ | k
  · simp
  · simp only [Nat.add_sub_cancel, mul_one, zero_mul, zero_sub, Nat.cast_add,
      Nat.cast_one]
    rw [div_eq_div_iff (pow_ne_zero _ h) (pow_ne_zero _ (pow_ne_zero _ h))]
    ring

lemma hasDerivAt_npvRealSum (cashFlows : List ℝ) (x : ℝ) (h : 1 + x ≠ 0) :
    HasDerivAt (fun r => npvRealSum r cashFlows) (npvDerivRealSum x cashFlows) x := by
  unfold npvRealSum npvDerivRealSum
  exact HasDerivAt.sum fun t _ => hasDerivAt_discount_term _ x t h

/-! Claim theorems. -/

/-- C1: for every numeric cash-flow list and every valid solver configuration
(`initial_guess > -1`, `tolerance > 0`, `max_iterations > 0`),
`internal_rate_of_return` implements the spec's Newton-Raphson root-finding
loop exactly: starting from the initial guess it performs at most
`max_iterations` updates `newRate = rate - npv(rate)/npvDerivative(rate)`,
fails immediately with `ZeroDerivative` when the derivative is zero, returns
`newRate` as soon as `|newRate - rate| < tolerance` (the sole convergence
criterion), and on exhaustion fails with `DidNotConverge` carrying the
configured `max_iterations`. -/
theorem irr_implements_spec_root_finder (cashFlows : List ℚ)
    (initialGuess tolerance : ℚ) (maxIterations : ℤ)
    (hg : -1 < initialGuess) (ht : 0 < tolerance) (hN : 0 < maxIterations) :
    internal_rate_of_return cashFlows initialGuess tolerance maxIterations =
      specRootFind (fun r => npv r cashFlows)
        (fun r => npv_derivative r cashFlows) tolerance maxIterations
        initialGuess maxIterations.toNat := by
  rw [internal_rate_of_return, if_neg (by linarith), if_neg (by linarith),
    if_neg (by omega), irrLoop_eq_specRootFind]

/-- C2: for every rate strictly above `-1`, `npv` returns the closed-form sum
of discounted cash flows Σ over t of `cashFlows[t] / (1+rate)^t` (exact in
rational arithmetic), and for every rate strictly below `-1` it fails with the
`InvalidRate` error. -/
theorem npv_spec (rate : ℚ) (cashFlows : List ℚ) :
    (-1 < rate → npv rate cashFlows =
      Except.ok (∑ t in Finset.range cashFlows.length,
        cashFlows.getD t 0 / (1 + rate) ^ t))
    ∧ (rate < -1 → npv rate cashFlows = Except.error FinError.invalidRate) := by
  constructor
  · intro h
    rw [npv, if_neg (not_lt.mpr (le_of_lt h)), npvSum_ok h]
    simp
  · intro h
    rw [npv, if_pos h]

/-- C3: for every rate strictly above `-1`, `npv_derivative` returns the
closed-form sum Σ over t of `-t * cashFlows[t] / (1+rate)^(t+1)`; it applies
the same validation and zero-division policy as `npv` (a rate strictly below
`-1` is rejected with `InvalidRate`, and the division by zero arising at rate
exactly `-1` — on any nonempty list, since every term of the derivative sum
divides by `(1+rate)^(t+1)` — is reported as `InvalidRate`); and that closed
form is the analytic derivative of the `npv` closed form with respect to the
rate. -/
theorem npv_derivative_spec (rate : ℚ) (cashFlows : List ℚ) :
    (-1 < rate → npv_derivative rate cashFlows =
      Except.ok (∑ t in Finset.range cashFlows.length,
        -(t : ℚ) * cashFlows.getD t 0 / (1 + rate) ^ (t + 1)))
    ∧ (rate < -1 →
        npv_derivative rate cashFlows = Except.error FinError.invalidRate)
    ∧ (cashFlows ≠ [] →
        npv_derivative (-1) cashFlows = Except.error FinError.invalidRate)
    ∧ (∀ x : ℝ, -1 < x →
        HasDerivAt (fun r => npvRealSum r (cashFlows.map fun q => (q : ℝ)))
          (npvDerivRealSum x (cashFlows.map fun q => (q : ℝ))) x) := by
  refine ⟨?_, ?_, ?_, ?_⟩
  · intro h
    rw [npv_derivative, if_neg (not_lt.mpr (le_of_lt h)), npvDerivSum_ok h]
    simp
  · intro h
    rw [npv_derivative, if_pos h]
  · intro h
    match cashFlows, h with
    | c :: rest, _ =>
      rw [npv_derivative, if_neg (by norm_num), npvDerivSum,
        if_pos (by norm_num)]
  · intro x hx
    exact hasDerivAt_npvRealSum _ x (ne_of_gt (by linarith))

/-- C4 counterexample: with the valid solver configuration
`initial_guess = 1/10`, `tolerance = 1`, `max_iterations = 5` on the cash
flows `[-1, 2]`, `internal_rate_of_return` returns `119/200` successfully,
yet `|npv(119/200, [-1,2])| = 81/319 ≥ 1e-4`: a successful return does not
bound the residual by `1e-4`. -/
theorem irr_residual_not_small :
    internal_rate_of_return [(-1 : ℚ), 2] (1 / 10) 1 5 =
      Except.ok (119 / 200) ∧
    npv (119 / 200) [(-1 : ℚ), 2] = Except.ok (81 / 319) ∧
    ¬ |(81 / 319 : ℚ)| < 1 / 10000 := by
  refine ⟨?_, ?_, ?_⟩
  · norm_num [internal_rate_of_return, irrLoop, npv, npvSum, npv_derivative,
      npvDerivSum, abs_lt]
  · norm_num [npv, npvSum]
  · rw [abs_of_pos (by norm_num)]
    norm_num

/-- C4 amended: whenever `internal_rate_of_return` returns a rate `irr`
successfully, `irr` is the Newton update from a final iterate `r` at which
`|npv(r)| < tolerance * |npvDerivative(r)|` and `|irr - r| < tolerance`; the
residual at `irr` itself is not bounded by `1e-4` in general. -/
theorem irr_success_last_step (cashFlows : List ℚ)
    (initialGuess tolerance : ℚ) (maxIterations : ℤ) (irr : ℚ)
    (h : internal_rate_of_return cashFlows initialGuess tolerance
      maxIterations = Except.ok irr) :
    ∃ r v d, npv r cashFlows = Except.ok v ∧
      npv_derivative r cashFlows = Except.ok d ∧ d ≠ 0 ∧
      irr = r - v / d ∧ |irr - r| < tolerance ∧ |v| < tolerance * |d| := by
  rw [internal_rate_of_return] at h
  by_cases h1 : initialGuess ≤ -1
  · rw [if_pos h1] at h; exact absurd h (by simp)
  · rw [if_neg h1] at h
    by_cases h2 : tolerance ≤ 0
    · rw [if_pos h2] at h; exact absurd h (by simp)
    · rw [if_neg h2] at h
      by_cases h3 : maxIterations ≤ 0
      · rw [if_pos h3] at h; exact absurd h (by simp)
      · rw [if_neg h3] at h
        obtain ⟨r, v, d, hv, hd, h0, heq, hlt⟩ :=
          irrLoop_ok_last_step _ _ _ _ _ _ h
        refine ⟨r, v, d, hv, hd, h0, heq, hlt, ?_⟩
        have habs : |v / d| < tolerance := by
          have hsub : irr - r = -(v / d) := by rw [heq]; ring
          rw [hsub, abs_neg] at hlt
          exact hlt
        rw [abs_div] at habs
        have hdpos : 0 < |d| := abs_pos.mpr h0
        calc |v| = |v| / |d| * |d| := by field_simp
    _ < tolerance * |d| := mul_lt_mul_of_pos_right habs hdpos

/-- C5: any call of `internal_rate_of_return` with `initial_guess ≤ -1`, or
`tolerance ≤ 0`, or `max_iterations ≤ 0`, fails with the parameter-validation
error before any iteration, regardless of the cash flows. -/
theorem irr_invalid_params_rejected (cashFlows : List ℚ)
    (initialGuess tolerance : ℚ) (maxIterations : ℤ)
    (h : initialGuess ≤ -1 ∨ tolerance ≤ 0 ∨ maxIterations ≤ 0) :
    internal_rate_of_return cashFlows initialGuess tolerance maxIterations =
      Except.error FinError.invalidParameter := by
  rw [internal_rate_of_return]
  by_cases h1 : initialGuess ≤ -1
  · rw [if_pos h1]
  · rw [if_neg h1]
    by_cases h2 : tolerance ≤ 0
    · rw [if_pos h2]
    · rw [if_neg h2]
      have h3 : maxIterations ≤ 0 := by tauto
      rw [if_pos h3]

/-- C6: `npv` at rate `-1` on any cash-flow list with a term at a period
`t ≥ 1` (length at least 2), and `bond_price` at discount rate `-1` for any
otherwise-valid bond parameters, both fail with the `InvalidRate` error kind
rather than an unhandled division-by-zero fault. -/
theorem neg_one_rate_rejected (cashFlows : List ℚ)
    (faceValue couponRate : ℚ) (periods : ℤ)
    (hlen : 2 ≤ cashFlows.length) (hf : 0 < faceValue) (hc : 0 ≤ couponRate)
    (hp : 0 < periods) :
    npv (-1) cashFlows = Except.error FinError.invalidRate ∧
    bond_price faceValue couponRate periods (-1) =
      Except.error FinError.invalidRate := by
  constructor
  · exact npv_neg_one_error hlen
  · rw [bond_price, if_neg (not_le.mpr hf), if_neg (not_lt.mpr hc),
      if_neg (not_le.mpr hp), if_pos (by norm_num)]

/-- C7: `bond_price` with `faceValue > 0`, `couponRate ≥ 0`, integer
`periods > 0` and `discountRate ≥ 0` returns the closed-form price
Σ over t = 1..periods of `faceValue*couponRate/(1+discountRate)^t` plus
`faceValue/(1+discountRate)^periods`; any input violating these bounds fails
with a validation error. -/
theorem bond_price_spec (faceValue couponRate : ℚ) (periods : ℤ)
    (discountRate : ℚ) :
    (0 < faceValue → 0 ≤ couponRate → 0 < periods → 0 ≤ discountRate →
      bond_price faceValue couponRate periods discountRate =
        Except.ok ((∑ t in Finset.range periods.toNat,
          faceValue * couponRate / (1 + discountRate) ^ (t + 1)) +
          faceValue / (1 + discountRate) ^ periods.toNat))
    ∧ ((faceValue ≤ 0 ∨ couponRate < 0 ∨ periods ≤ 0 ∨ discountRate < 0) →
      bond_price faceValue couponRate periods discountRate =
        Except.error FinError.invalidParameter ∨
      bond_price faceValue couponRate periods discountRate =
        Except.error FinError.invalidRate) := by
  constructor
  · intro hf hc hp hd
    rw [bond_price, if_neg (not_le.mpr hf), if_neg (not_lt.mpr hc),
      if_neg (not_le.mpr hp), if_neg (not_lt.mpr hd), bondSum_ok _ hd,
      tryBind_ok, if_neg (one_add_pow_ne_zero (by linarith) _)]
    congr 2
    refine Finset.sum_congr rfl fun i _ => ?_
    rw [add_comm 1 i]
  · intro h
    rw [bond_price]
    by_cases h1 : faceValue ≤ 0
    · left; rw [if_pos h1]
    · rw [if_neg h1]
      by_cases h2 : couponRate < 0
      · left; rw [if_pos h2]
      · rw [if_neg h2]
        by_cases h3 : periods ≤ 0
        · left; rw [if_pos h3]
        · rw [if_neg h3]
          have h4 : discountRate < 0 := by tauto
          right; rw [if_pos h4]

/-- C8: for every rate `≥ 0`, every present value and every period count
`≥ 0`, compounding with `future_value` and then discounting with
`present_value` returns the original value exactly (in exact rational
arithmetic, since `(1+rate)^n` is nonzero). -/
theorem pv_fv_round_trip (rate presentVal : ℚ) (periods : ℤ)
    (hr : 0 ≤ rate) (hp : 0 ≤ periods) :
    ∃ fv, future_value rate presentVal periods = Except.ok fv ∧
      present_value rate fv periods = Except.ok presentVal := by
  have hpow : (1 + rate) ^ periods.toNat ≠ 0 :=
    one_add_pow_ne_zero (by linarith) _
  refine ⟨presentVal * (1 + rate) ^ periods.toNat, ?_, ?_⟩
  · rw [future_value, if_neg (not_lt.mpr hp), if_neg (not_lt.mpr hr)]
  · rw [present_value, if_neg (not_lt.mpr hp), if_neg (not_lt.mpr hr),
      if_neg hpow, mul_div_cancel_right₀ _ hpow]

/-- C9: on any cash-flow list of length at most one, with any valid solver
configuration, `internal_rate_of_return` fails with `ZeroDerivative` (the
loop never returns a rate), because `npv_derivative` is identically zero at
every rate above `-1`: the `t = 0` term carries the factor `-t = 0`. -/
theorem irr_short_list_zero_derivative (cashFlows : List ℚ)
    (initialGuess tolerance : ℚ) (maxIterations : ℤ)
    (hlen : cashFlows.length ≤ 1) (hg : -1 < initialGuess)
    (ht : 0 < tolerance) (hN : 0 < maxIterations) :
    internal_rate_of_return cashFlows initialGuess tolerance maxIterations =
      Except.error FinError.zeroDerivative ∧
    (∀ rate : ℚ, -1 < rate → npv_derivative rate cashFlows = Except.ok 0) := by
  have hderiv : ∀ rate : ℚ, -1 < rate →
      npv_derivative rate cashFlows = Except.ok 0 := by
    intro rate hr
    rw [npv_derivative, if_neg (not_lt.mpr (le_of_lt hr)), npvDerivSum_ok hr]
    match cashFlows, hlen with
    | [], _ => simp
    | [c], _ => simp
  refine ⟨?_, hderiv⟩
  rw [internal_rate_of_return, if_neg (by linarith), if_neg (by linarith),
    if_neg (by omega)]
  obtain ⟨m, hm⟩ : ∃ m, maxIterations.toNat = m + 1 :=
    ⟨maxIterations.toNat - 1, by omega⟩
  rw [hm, irrLoop, npv, if_neg (not_lt.mpr (le_of_lt hg)), npvSum_ok hg,
    tryBind_ok, hderiv initialGuess hg, tryBind_ok, if_pos rfl]

/-- C10: `npv` at rate exactly `-1` fails with `InvalidRate` precisely when
the list has at least two entries; on a one-element list it returns that
element (divided by `(1+rate)^0 = 1`) and on the empty list it returns `0`,
raising no error. -/
theorem npv_neg_one_spec (cashFlows : List ℚ) :
    (npv (-1) cashFlows = Except.error FinError.invalidRate ↔
      2 ≤ cashFlows.length)
    ∧ (∀ c : ℚ, cashFlows = [c] → npv (-1) cashFlows = Except.ok c)
    ∧ (cashFlows = [] → npv (-1) cashFlows = Except.ok 0) := by
  match cashFlows with
  | [] =>
    refine ⟨?_, ?_, ?_⟩
    · constructor
      · intro h
        norm_num [npv, npvSum] at h
        exact Except.noConfusion h
      · intro h; simp at h
    · intro c hc; exact absurd hc (by simp)
    · intro _; norm_num [npv, npvSum]
  | [c] =>
    refine ⟨?_, ?_, ?_⟩
    · constructor
      · intro h
        norm_num [npv, npvSum] at h
        exact Except.noConfusion h
      · intro h; simp at h
    · intro c2 hc
      obtain rfl : c = c2 := by injection hc
      norm_num [npv, npvSum]
    · intro hc; exact absurd hc (by simp)
  | c1 :: c2 :: rest =>
    refine ⟨?_, ?_, ?_⟩
    · have hlen : 2 ≤ (c1 :: c2 :: rest).length := by simp
      simp only [npv_neg_one_error hlen, hlen, iff_true]
    · intro c hc; exact absurd hc (by simp)
    · intro hc; exact absurd hc (by simp)

/-! Witnesses: each claim theorem with hypotheses, applied at a concrete
input with the hypotheses discharged. -/

/-- Witness for C1 at cash flows `[-1, 2]`, guess `1/10`, tolerance `1`,
five iterations. -/
theorem irr_implements_spec_root_finder_witness :
    internal_rate_of_return [(-1 : ℚ), 2] (1 / 10) 1 5 =
      specRootFind (fun r => npv r [(-1 : ℚ), 2])
        (fun r => npv_derivative r [(-1 : ℚ), 2]) 1 5 (1 / 10)
        (Int.toNat 5) :=
  irr_implements_spec_root_finder [(-1 : ℚ), 2] (1 / 10) 1 5 (by norm_num)
    (by norm_num) (by norm_num)

/-- Witness for C2 at rate `1/10` (closed form) and rate `-2` (rejection). -/
theorem npv_spec_witness :
    npv (1 / 10) [(-1 : ℚ), 2] =
      Except.ok (∑ t in Finset.range ([(-1 : ℚ), 2].length),
        [(-1 : ℚ), 2].getD t 0 / (1 + 1 / 10) ^ t) ∧
    npv (-2) [(-1 : ℚ), 2] = Except.error FinError.invalidRate :=
  ⟨(npv_spec (1 / 10) [(-1 : ℚ), 2]).1 (by norm_num),
   (npv_spec (-2) [(-1 : ℚ), 2]).2 (by norm_num)⟩

/-- Witness for C3 at rate `1/10` (closed form), rate `-2` (rejection), rate
`-1` (zero-division reported as the rate-domain error), and the
analytic-derivative fact at the real rate `0`. -/
theorem npv_derivative_spec_witness :
    npv_derivative (1 / 10) [(-1 : ℚ), 2] =
      Except.ok (∑ t in Finset.range ([(-1 : ℚ), 2].length),
        -(t : ℚ) * [(-1 : ℚ), 2].getD t 0 / (1 + 1 / 10) ^ (t + 1)) ∧
    npv_derivative (-2) [(-1 : ℚ), 2] = Except.error FinError.invalidRate ∧
    npv_derivative (-1) [(-1 : ℚ), 2] = Except.error FinError.invalidRate ∧
    HasDerivAt (fun r => npvRealSum r ([(-1 : ℚ), 2].map fun q => (q : ℝ)))
      (npvDerivRealSum 0 ([(-1 : ℚ), 2].map fun q => (q : ℝ))) 0 :=
  ⟨(npv_derivative_spec (1 / 10) [(-1 : ℚ), 2]).1 (by norm_num),
   (npv_derivative_spec (-2) [(-1 : ℚ), 2]).2.1 (by norm_num),
   (npv_derivative_spec (-1) [(-1 : ℚ), 2]).2.2.1 (by simp),
   (npv_derivative_spec (1 / 10) [(-1 : ℚ), 2]).2.2.2 0 (by norm_num)⟩

/-- Witness for the amended C4 at the successful run returning `119/200`. -/
theorem irr_success_last_step_witness :
    ∃ r v d, npv r [(-1 : ℚ), 2] = Except.ok v ∧
      npv_derivative r [(-1 : ℚ), 2] = Except.ok d ∧ d ≠ 0 ∧
      (119 / 200 : ℚ) = r - v / d ∧ |(119 / 200 : ℚ) - r| < 1 ∧
      |v| < 1 * |d| :=
  irr_success_last_step [(-1 : ℚ), 2] (1 / 10) 1 5 (119 / 200)
    (by norm_num [internal_rate_of_return, irrLoop, npv, npvSum,
      npv_derivative, npvDerivSum, abs_lt])

/-- Witness for C5 at `max_iterations = 0`. -/
theorem irr_invalid_params_rejected_witness :
    internal_rate_of_return [(-1 : ℚ), 2] (1 / 10) (1 / 1000000) 0 =
      Except.error FinError.invalidParameter :=
  irr_invalid_params_rejected [(-1 : ℚ), 2] (1 / 10) (1 / 1000000) 0
    (Or.inr (Or.inr (by norm_num)))

/-- Witness for C6 at a two-element cash-flow list and a standard bond. -/
theorem neg_one_rate_rejected_witness :
    npv (-1) [(-1000 : ℚ), 300] = Except.error FinError.invalidRate ∧
    bond_price 1000 (1 / 20) 10 (-1) = Except.error FinError.invalidRate :=
  neg_one_rate_rejected [(-1000 : ℚ), 300] 1000 (1 / 20) 10 (by simp)
    (by norm_num) (by norm_num) (by norm_num)

/-- Witness for C7 at a two-period bond (closed form) and at a negative face
value (rejection). -/
theorem bond_price_spec_witness :
    bond_price 1000 (1 / 20) 2 (3 / 100) =
      Except.ok ((∑ t in Finset.range ((2 : ℤ).toNat),
        1000 * (1 / 20) / (1 + 3 / 100) ^ (t + 1)) +
        1000 / (1 + 3 / 100) ^ (2 : ℤ).toNat) ∧
    (bond_price (-5) (1 / 20) 2 (3 / 100) =
        Except.error FinError.invalidParameter ∨
      bond_price (-5) (1 / 20) 2 (3 / 100) =
        Except.error FinError.invalidRate) :=
  ⟨(bond_price_spec 1000 (1 / 20) 2 (3 / 100)).1 (by norm_num) (by norm_num)
      (by norm_num) (by norm_num),
   (bond_price_spec (-5) (1 / 20) 2 (3 / 100)).2 (Or.inl (by norm_num))⟩

/-- Witness for C8 at rate `1/20`, present value `100`, three periods. -/
theorem pv_fv_round_trip_witness :
    ∃ fv, future_value (1 / 20) 100 3 = Except.ok fv ∧
      present_value (1 / 20) fv 3 = Except.ok 100 :=
  pv_fv_round_trip (1 / 20) 100 3 (by norm_num) (by norm_num)

/-- Witness for C9 at the one-element list `[5]` with the source's default
solver configuration. -/
theorem irr_short_list_zero_derivative_witness :
    internal_rate_of_return [(5 : ℚ)] (1 / 10) (1 / 1000000) 1000 =
      Except.error FinError.zeroDerivative ∧
    npv_derivative (1 / 10) [(5 : ℚ)] = Except.ok 0 :=
  ⟨(irr_short_list_zero_derivative [(5 : ℚ)] (1 / 10) (1 / 1000000) 1000
      (by simp) (by norm_num) (by norm_num) (by norm_num)).1,
   (irr_short_list_zero_derivative [(5 : ℚ)] (1 / 10) (1 / 1000000) 1000
      (by simp) (by norm_num) (by norm_num) (by norm_num)).2 (1 / 10)
      (by norm_num)⟩

/-- Witness for C10 at a three-element list, a one-element list and the empty
list. -/
theorem npv_neg_one_spec_witness :
    (npv (-1) [(-1000 : ℚ), 300, 400] = Except.error FinError.invalidRate ↔
      2 ≤ [(-1000 : ℚ), 300, 400].length) ∧
    npv (-1) [(7 : ℚ)] = Except.ok 7 ∧
    npv (-1) ([] : List ℚ) = Except.ok 0 :=
  ⟨(npv_neg_one_spec [(-1000 : ℚ), 300, 400]).1,
   (npv_neg_one_spec [(7 : ℚ)]).2.1 7 rfl,
   (npv_neg_one_spec ([] : List ℚ)).2.2 rfl⟩

end Pynance
